import Mathlib

/-!
Verification development for the py-flask-api repository.

The repository has two files: wpm.py, whose function analyze_audio_metrics turns
a decoded audio clip, the output of a silence detector, and the outcome of a
speech recognizer into a dictionary of speaking metrics; and app.py, whose
analyze route receives one uploaded file, saves it, transcodes it to a wav file,
calls analyze_audio_metrics, cleans up the temporary files, and answers with
JSON.  The external collaborators (pydub decoding and silence detection, the
speech recognizer, the filesystem) are modelled by passing their observable
outcomes in as values.  Python floats are modelled as rationals, Python ints as
Nat or Int.  The regular expressions of wpm.py are used only on word-run
tokenization and on literal patterns wrapped in word boundaries; both are
embedded directly below for the ASCII alphabet the transcripts use.
-/

/-- Word characters of the regex class used by wpm.py (alphanumerics and the
underscore), restricted to the ASCII alphabet. -/
def isWordChar (c : Char) : Bool := c.isAlphanum || c = '_'

/-- Models the Python method str.lower for ASCII characters. -/
def toLowerChars (s : List Char) : List Char := s.map Char.toLower

/-- Helper of tokens: acc holds the characters of the current word run in
reverse order. -/
def tokensAux : List Char → List Char → List (List Char)
  | [], acc => if acc.isEmpty then [] else [acc.reverse]
  | c :: cs, acc =>
    if isWordChar c then tokensAux cs (c :: acc)
    else if acc.isEmpty then tokensAux cs [] else acc.reverse :: tokensAux cs []

/-- Models re.findall of maximal word-character runs, as used at wpm.py line 47
to produce the word list of the transcript. -/
def tokens (s : List Char) : List (List Char) := tokensAux s []

/-- Word-character status of the first character; the empty list counts as a
non-word position, as the regex treats the ends of the subject string. -/
def headIsWord : List Char → Bool
  | [] => false
  | c :: _ => isWordChar c

/-- Word-character status after scanning a list of characters starting from a
given previous status: the status of the last character when the list is
nonempty. -/
def scanWordState (q : List Char) (prev : Bool) : Bool :=
  q.foldl (fun _ c => isWordChar c) prev

/-- Word-character status of the last character of a pattern; false for the
empty pattern. -/
def endsWord (p : List Char) : Bool := scanWordState p false

/-- One candidate position of the scan of re.findall for the literal pattern p
wrapped in word boundaries: p occurs literally at the head of s, with a word
boundary before it (prevW is the word-character status of the character just
before this position) and a word boundary after it. -/
def matchHere (p s : List Char) (prevW : Bool) : Bool :=
  !p.isEmpty && (s.take p.length == p) && (prevW != headIsWord p) &&
    (endsWord p != headIsWord (s.drop p.length))

/-- The left-to-right non-overlapping scan of re.findall over s for the
boundary-wrapped literal pattern p: skip counts the characters of the current
match still to be passed over before the search resumes. -/
def findallCountAux (p : List Char) : List Char → Bool → Nat → Nat
  | [], _, _ => 0
  | c :: cs, _, skip + 1 => findallCountAux p cs (isWordChar c) skip
  | c :: cs, prevW, 0 =>
    if matchHere p (c :: cs) prevW then
      1 + findallCountAux p cs (isWordChar c) (p.length - 1)
    else
      findallCountAux p cs (isWordChar c) 0

/-- Models the count of re.findall matches of the boundary-wrapped escaped
filler over the lowered transcript, wpm.py line 53. -/
def countMatches (p s : List Char) : Nat := findallCountAux p s false 0

/-- The default filler list of analyze_audio_metrics, wpm.py line 14. -/
def default_filler_list : List String := ["um", "uh", "er", "ah", "like", "you know"]

/-- Outcome of the speech-recognition block of wpm.py lines 36-44: a transcript
was produced, the recognizer raised UnknownValueError, or it raised
RequestError with the given detail text. -/
inductive TranscriptionOutcome where
  | success (text : String)
  | unknownValue
  | requestError (detail : String)

/-- The value of the transcript variable after the try/except block of wpm.py
lines 36-44. -/
def transcriptOf : TranscriptionOutcome → String
  | .success t => t
  | .unknownValue => ""
  | .requestError e => "Request error: " ++ e

/-- Resolution of the None default of the filler_list parameter, wpm.py lines
13-14. -/
def resolvedFillerList : Option (List String) → List String
  | none => default_filler_list
  | some l => l

/-- Total silence in seconds from the detect_silence ranges, wpm.py line 28:
the sum of the millisecond lengths divided by 1000. -/
def silenceSum (silence_ranges : List (ℤ × ℤ)) : ℚ :=
  (((silence_ranges.map (fun r => r.2 - r.1)).sum : ℤ) : ℚ) / 1000

/-- len of the word list of the lowered transcript, wpm.py lines 47-48. -/
def transcriptWordCount (t : String) : ℕ :=
  (tokens (toLowerChars t.data)).length

/-- The filler_count accumulation loop of wpm.py lines 50-53. -/
def transcriptFillerCount (filler_list : List String) (t : String) : ℕ :=
  (filler_list.map (fun filler => countMatches filler.data (toLowerChars t.data))).sum

/-- The dictionary returned by analyze_audio_metrics, wpm.py lines 70-82. -/
structure AnalysisResult where
  total_duration_sec : ℚ
  total_silence_duration_sec : ℚ
  speaking_time_sec_excluding_pauses : ℚ
  transcript : String
  total_word_count : ℕ
  filler_count : ℕ
  estimated_filler_duration_sec : ℚ
  actual_speaking_duration_sec_excluding_fillers : ℚ
  rate_including_fillers_wpm : ℤ
  rate_excluding_fillers_wpm : ℤ
  silence_ranges_ms : List (ℤ × ℤ)

/-- Body of analyze_audio_metrics after the audio load succeeded, wpm.py lines
22-82, as a function of the decoded duration, the detect_silence output for the
given thresholds, the speech-recognition outcome, and the filler parameters.
The filler list argument is an Option, mirroring the None default of line 6 and
the default resolution of lines 13-14. -/
def analyze_audio_metrics_core (duration_seconds : ℚ) (silence_ranges : List (ℤ × ℤ))
    (outcome : TranscriptionOutcome) (filler_list_arg : Option (List String))
    (filler_avg_duration : ℚ) : AnalysisResult :=
  let filler_list := resolvedFillerList filler_list_arg
  let total_duration_sec : ℚ := duration_seconds
  let total_silence_duration_sec : ℚ := silenceSum silence_ranges
  let speaking_time_sec := total_duration_sec - total_silence_duration_sec
  let transcript := transcriptOf outcome
  let total_word_count : ℕ := transcriptWordCount transcript
  let filler_count : ℕ := transcriptFillerCount filler_list transcript
  let total_filler_duration_sec := (filler_count : ℚ) * filler_avg_duration
  let actual_speaking_duration_sec :=
    let a := speaking_time_sec - total_filler_duration_sec
    if a < 0 then 0 else a
  let speaking_time_min := if 0 < speaking_time_sec then speaking_time_sec / 60 else 0
  let actual_speaking_time_min :=
    if 0 < actual_speaking_duration_sec then actual_speaking_duration_sec / 60 else 0
  let rate_including_fillers : ℤ :=
    if 0 < speaking_time_min then Int.floor ((total_word_count : ℚ) / speaking_time_min)
    else 0
  let rate_excluding_fillers : ℤ :=
    if 0 < actual_speaking_time_min then
      Int.floor ((((total_word_count : ℤ) - (filler_count : ℤ) : ℤ) : ℚ) / actual_speaking_time_min)
    else 0
  { total_duration_sec := total_duration_sec
    total_silence_duration_sec := total_silence_duration_sec
    speaking_time_sec_excluding_pauses := speaking_time_sec
    transcript := transcript
    total_word_count := total_word_count
    filler_count := filler_count
    estimated_filler_duration_sec := total_filler_duration_sec
    actual_speaking_duration_sec_excluding_fillers := actual_speaking_duration_sec
    rate_including_fillers_wpm := rate_including_fillers
    rate_excluding_fillers_wpm := rate_excluding_fillers
    silence_ranges_ms := silence_ranges }

/-- analyze_audio_metrics of wpm.py.  The outcome of AudioSegment.from_file at
line 17 is passed in as an Except value; a load failure makes the function
return the error string of line 20 instead of a result dictionary. -/
def analyze_audio_metrics (load_result : Except String ℚ) (silence_ranges : List (ℤ × ℤ))
    (outcome : TranscriptionOutcome) (filler_list_arg : Option (List String))
    (filler_avg_duration : ℚ) : Except String AnalysisResult :=
  match load_result with
  | .error e => .error ("Error loading audio file: " ++ e)
  | .ok duration =>
      .ok (analyze_audio_metrics_core duration silence_ranges outcome filler_list_arg
        filler_avg_duration)

/-- The file part of the multipart form, app.py line 20. -/
structure UploadedFile where
  filename : String

/-- The incoming request as seen by the analyze route: the file field of
request.files, absent when the form carries no part named file. -/
structure AnalyzeRequest where
  fileField : Option UploadedFile

/-- The JSON body of a response of app.py: an error object, a result
dictionary, or a bare JSON string (jsonify applied to the error string that
analyze_audio_metrics returns on a load failure). -/
inductive RespBody where
  | errorBody (msg : String)
  | resultBody (r : AnalysisResult)
  | stringBody (s : String)

structure HttpResponse where
  status : ℕ
  body : RespBody

/-- Outcomes of the external collaborators as seen by one request of the
analyze route of app.py. -/
structure HandlerEnv where
  /-- the uuid4 hex drawn at line 25 -/
  uuid : String
  /-- outcome of AudioSegment.from_file on the saved upload, line 32 -/
  decodeUpload : Except String Unit
  /-- outcome of audio.export to the wav path, line 34 -/
  exportResult : Except String Unit
  /-- whether a failing export left a file at the wav path -/
  exportWritesOnFail : Bool
  /-- an exception escaping analyze_audio_metrics, such as one raised inside
  the speech-recognition library outside the two handled classes -/
  metricsRaise : Option String
  /-- outcome of AudioSegment.from_file inside analyze_audio_metrics when it
  reads the wav file -/
  wavLoad : Except String ℚ
  /-- detect_silence output for the wav file at the default thresholds -/
  wavSilence : List (ℤ × ℤ)
  /-- outcome of the speech-recognition block for the wav file -/
  wavOutcome : TranscriptionOutcome

/-- What one run of the analyze route did: the temporary files it created, the
ones still existing when it returned, the response, and whether
analyze_audio_metrics was invoked. -/
structure HandlerTrace where
  written : List String
  remaining : List String
  response : HttpResponse
  analyzeCalled : Bool

/-- os.remove guarded by os.path.exists, acting on the list of files this
request created and not yet removed; erase is a no-op when the path is
absent, matching the guard. -/
def removeIfExists (p : String) (fs : List String) : List String := fs.erase p

/-- The analyze route of app.py, lines 14-53.  The filesystem is tracked as
the list of temporary files the request has created and not yet removed. -/
def analyze (req : AnalyzeRequest) (env : HandlerEnv) : HandlerTrace :=
  match req.fileField with
  | none =>
      { written := [], remaining := [],
        response := ⟨400, .errorBody "No file part in the request"⟩,
        analyzeCalled := false }
  | some f =>
      if f.filename = "" then
        { written := [], remaining := [],
          response := ⟨400, .errorBody "No file selected"⟩,
          analyzeCalled := false }
      else
        let filepath := "uploads/" ++ env.uuid ++ "_" ++ f.filename
        let fs1 := [filepath]
        match env.decodeUpload with
        | .error e =>
            { written := fs1,
              remaining := removeIfExists filepath fs1,
              response := ⟨500, .errorBody e⟩,
              analyzeCalled := false }
        | .ok _ =>
            let wav_filepath := "myWav.wav"
            match env.exportResult with
            | .error e =>
                let fs2 := if env.exportWritesOnFail then fs1 ++ [wav_filepath] else fs1
                { written := fs2,
                  remaining := removeIfExists wav_filepath (removeIfExists filepath fs2),
                  response := ⟨500, .errorBody e⟩,
                  analyzeCalled := false }
            | .ok _ =>
                let fs2 := fs1 ++ [wav_filepath]
                match env.metricsRaise with
                | some m =>
                    { written := fs2,
                      remaining := removeIfExists wav_filepath (removeIfExists filepath fs2),
                      response := ⟨500, .errorBody m⟩,
                      analyzeCalled := true }
                | none =>
                    let result := analyze_audio_metrics env.wavLoad env.wavSilence
                      env.wavOutcome none (3/10)
                    { written := fs2,
                      remaining := removeIfExists wav_filepath (removeIfExists filepath fs2),
                      response := ⟨200, match result with
                        | .ok r => .resultBody r
                        | .error s => .stringBody s⟩,
                      analyzeCalled := true }

/-! ## Projections of the metrics core -/

theorem core_total_duration (d : ℚ) (sr : List (ℤ × ℤ)) (o : TranscriptionOutcome)
    (fl : Option (List String)) (fa : ℚ) :
    (analyze_audio_metrics_core d sr o fl fa).total_duration_sec = d := rfl

theorem core_total_silence (d : ℚ) (sr : List (ℤ × ℤ)) (o : TranscriptionOutcome)
    (fl : Option (List String)) (fa : ℚ) :
    (analyze_audio_metrics_core d sr o fl fa).total_silence_duration_sec = silenceSum sr := rfl

theorem core_speaking_time (d : ℚ) (sr : List (ℤ × ℤ)) (o : TranscriptionOutcome)
    (fl : Option (List String)) (fa : ℚ) :
    (analyze_audio_metrics_core d sr o fl fa).speaking_time_sec_excluding_pauses
      = d - silenceSum sr := rfl

theorem core_transcript (d : ℚ) (sr : List (ℤ × ℤ)) (o : TranscriptionOutcome)
    (fl : Option (List String)) (fa : ℚ) :
    (analyze_audio_metrics_core d sr o fl fa).transcript = transcriptOf o := rfl

theorem core_word_count (d : ℚ) (sr : List (ℤ × ℤ)) (o : TranscriptionOutcome)
    (fl : Option (List String)) (fa : ℚ) :
    (analyze_audio_metrics_core d sr o fl fa).total_word_count
      = transcriptWordCount (transcriptOf o) := rfl

theorem core_filler_count (d : ℚ) (sr : List (ℤ × ℤ)) (o : TranscriptionOutcome)
    (fl : Option (List String)) (fa : ℚ) :
    (analyze_audio_metrics_core d sr o fl fa).filler_count
      = transcriptFillerCount (resolvedFillerList fl) (transcriptOf o) := rfl

theorem core_estimated_filler (d : ℚ) (sr : List (ℤ × ℤ)) (o : TranscriptionOutcome)
    (fl : Option (List String)) (fa : ℚ) :
    (analyze_audio_metrics_core d sr o fl fa).estimated_filler_duration_sec
      = (transcriptFillerCount (resolvedFillerList fl) (transcriptOf o) : ℚ) * fa := rfl

theorem core_actual_duration (d : ℚ) (sr : List (ℤ × ℤ)) (o : TranscriptionOutcome)
    (fl : Option (List String)) (fa : ℚ) :
    (analyze_audio_metrics_core d sr o fl fa).actual_speaking_duration_sec_excluding_fillers
      = (if d - silenceSum sr
            - (transcriptFillerCount (resolvedFillerList fl) (transcriptOf o) : ℚ) * fa < 0
         then 0
         else d - silenceSum sr
            - (transcriptFillerCount (resolvedFillerList fl) (transcriptOf o) : ℚ) * fa) := rfl

theorem core_rate_including (d : ℚ) (sr : List (ℤ × ℤ)) (o : TranscriptionOutcome)
    (fl : Option (List String)) (fa : ℚ) :
    (analyze_audio_metrics_core d sr o fl fa).rate_including_fillers_wpm
      = (if 0 < (if 0 < d - silenceSum sr then (d - silenceSum sr) / 60 else 0)
         then Int.floor ((transcriptWordCount (transcriptOf o) : ℚ)
            / (if 0 < d - silenceSum sr then (d - silenceSum sr) / 60 else 0))
         else 0) := rfl

theorem core_rate_excluding (d : ℚ) (sr : List (ℤ × ℤ)) (o : TranscriptionOutcome)
    (fl : Option (List String)) (fa : ℚ) :
    (analyze_audio_metrics_core d sr o fl fa).rate_excluding_fillers_wpm
      = (if 0 < (if 0
              < (analyze_audio_metrics_core d sr o fl fa).actual_speaking_duration_sec_excluding_fillers
            then (analyze_audio_metrics_core d sr o fl fa).actual_speaking_duration_sec_excluding_fillers / 60
            else 0)
         then Int.floor
            ((((transcriptWordCount (transcriptOf o) : ℤ)
                - (transcriptFillerCount (resolvedFillerList fl) (transcriptOf o) : ℤ) : ℤ) : ℚ)
              / (if 0
                    < (analyze_audio_metrics_core d sr o fl fa).actual_speaking_duration_sec_excluding_fillers
                 then (analyze_audio_metrics_core d sr o fl fa).actual_speaking_duration_sec_excluding_fillers / 60
                 else 0))
         else 0) := rfl

/-! ## Arithmetic helpers for the rate fields -/

theorem clamp_eq_max (x : ℚ) : (if x < 0 then 0 else x) = max 0 x := by
  rcases le_or_lt 0 x with h | h
  · rw [if_neg (not_lt.mpr h), max_eq_right h]
  · rw [if_pos h, max_eq_left h.le]

theorem rate_including_of_pos {d : ℚ} {sr : List (ℤ × ℤ)} {o : TranscriptionOutcome}
    {fl : Option (List String)} {fa : ℚ} (h : 0 < d - silenceSum sr) :
    (analyze_audio_metrics_core d sr o fl fa).rate_including_fillers_wpm
      = Int.floor ((transcriptWordCount (transcriptOf o) : ℚ) / ((d - silenceSum sr) / 60)) := by
  rw [core_rate_including, if_pos h, if_pos (div_pos h (by norm_num : (0:ℚ) < 60))]

theorem rate_including_of_nonpos {d : ℚ} {sr : List (ℤ × ℤ)} {o : TranscriptionOutcome}
    {fl : Option (List String)} {fa : ℚ} (h : d - silenceSum sr ≤ 0) :
    (analyze_audio_metrics_core d sr o fl fa).rate_including_fillers_wpm = 0 := by
  rw [core_rate_including, if_neg (not_lt.mpr h), if_neg (lt_irrefl (0:ℚ))]

theorem rate_excluding_of_pos {d : ℚ} {sr : List (ℤ × ℤ)} {o : TranscriptionOutcome}
    {fl : Option (List String)} {fa : ℚ}
    (h : 0 < (analyze_audio_metrics_core d sr o fl fa).actual_speaking_duration_sec_excluding_fillers) :
    (analyze_audio_metrics_core d sr o fl fa).rate_excluding_fillers_wpm
      = Int.floor (((transcriptWordCount (transcriptOf o) : ℚ)
            - (transcriptFillerCount (resolvedFillerList fl) (transcriptOf o) : ℚ))
          / ((analyze_audio_metrics_core d sr o fl fa).actual_speaking_duration_sec_excluding_fillers / 60)) := by
  rw [core_rate_excluding, if_pos h, if_pos (div_pos h (by norm_num : (0:ℚ) < 60))]
  norm_cast

theorem rate_excluding_of_nonpos {d : ℚ} {sr : List (ℤ × ℤ)} {o : TranscriptionOutcome}
    {fl : Option (List String)} {fa : ℚ}
    (h : (analyze_audio_metrics_core d sr o fl fa).actual_speaking_duration_sec_excluding_fillers ≤ 0) :
    (analyze_audio_metrics_core d sr o fl fa).rate_excluding_fillers_wpm = 0 := by
  rw [core_rate_excluding, if_neg (not_lt.mpr h), if_neg (lt_irrefl (0:ℚ))]

/-! ## Claim C3 -/

/-- C3: for every analysis result, rate_including_fillers_wpm is a non-negative
integer; whenever speaking_time_sec is positive it equals the floor of
total_word_count times 60 over speaking_time_sec, and whenever speaking_time_sec
is at most zero it equals 0. -/
theorem rate_including_fillers_spec (d : ℚ) (sr : List (ℤ × ℤ)) (o : TranscriptionOutcome)
    (fl : Option (List String)) (fa : ℚ) :
    0 ≤ (analyze_audio_metrics_core d sr o fl fa).rate_including_fillers_wpm ∧
    (0 < (analyze_audio_metrics_core d sr o fl fa).speaking_time_sec_excluding_pauses →
      (analyze_audio_metrics_core d sr o fl fa).rate_including_fillers_wpm
        = Int.floor (((analyze_audio_metrics_core d sr o fl fa).total_word_count : ℚ) * 60
            / (analyze_audio_metrics_core d sr o fl fa).speaking_time_sec_excluding_pauses)) ∧
    ((analyze_audio_metrics_core d sr o fl fa).speaking_time_sec_excluding_pauses ≤ 0 →
      (analyze_audio_metrics_core d sr o fl fa).rate_including_fillers_wpm = 0) := by
  refine ⟨?_, ?_, ?_⟩
  · rcases le_or_lt (d - silenceSum sr) 0 with h | h
    · rw [rate_including_of_nonpos h]
    · rw [rate_including_of_pos h]
      exact Int.floor_nonneg.mpr
        (div_nonneg (Nat.cast_nonneg _) (le_of_lt (div_pos h (by norm_num))))
  · intro h
    rw [core_speaking_time] at h
    rw [core_speaking_time, core_word_count, rate_including_of_pos h, div_div_eq_mul_div]
  · intro h
    rw [core_speaking_time] at h
    exact rate_including_of_nonpos h

/-- Witness for C3 at the end-to-end example of the spec: duration 10 s, one
second of silence, transcript hello world. -/
theorem rate_including_fillers_spec_witness :
    0 < (analyze_audio_metrics_core 10 [(1000, 2000)] (.success "hello world") none
          (3/10)).speaking_time_sec_excluding_pauses ∧
    (analyze_audio_metrics_core 10 [(1000, 2000)] (.success "hello world") none
          (3/10)).rate_including_fillers_wpm
      = Int.floor (((analyze_audio_metrics_core 10 [(1000, 2000)] (.success "hello world") none
              (3/10)).total_word_count : ℚ) * 60
          / (analyze_audio_metrics_core 10 [(1000, 2000)] (.success "hello world") none
              (3/10)).speaking_time_sec_excluding_pauses) := by
  have hpos : 0 < (analyze_audio_metrics_core 10 [(1000, 2000)] (.success "hello world") none
      (3/10)).speaking_time_sec_excluding_pauses := by
    rw [core_speaking_time]
    norm_num [silenceSum]
  exact ⟨hpos,
    (rate_including_fillers_spec 10 [(1000, 2000)] (.success "hello world") none (3/10)).2.1 hpos⟩

/-! ## Claim C4 -/

/-- C4: the returned actual speaking duration equals
max 0 (speaking_time_sec minus filler_count times filler_avg_duration), and
speaking_time_sec equals total_duration_sec minus total_silence_duration_sec. -/
theorem actual_duration_clamped (d : ℚ) (sr : List (ℤ × ℤ)) (o : TranscriptionOutcome)
    (fl : Option (List String)) (fa : ℚ) :
    (analyze_audio_metrics_core d sr o fl fa).actual_speaking_duration_sec_excluding_fillers
      = max 0 ((analyze_audio_metrics_core d sr o fl fa).speaking_time_sec_excluding_pauses
          - ((analyze_audio_metrics_core d sr o fl fa).filler_count : ℚ) * fa) ∧
    (analyze_audio_metrics_core d sr o fl fa).speaking_time_sec_excluding_pauses
      = (analyze_audio_metrics_core d sr o fl fa).total_duration_sec
        - (analyze_audio_metrics_core d sr o fl fa).total_silence_duration_sec := by
  constructor
  · rw [core_actual_duration, core_speaking_time, core_filler_count, clamp_eq_max]
  · rw [core_speaking_time, core_total_duration, core_total_silence]

/-! ## Claim C6 -/

/-- C6: the numerator of rate_excluding_fillers_wpm is not clamped: whenever
filler_count exceeds total_word_count and the actual speaking duration is
positive, the rate equals the floor of (total_word_count minus filler_count)
over (actual_speaking_duration_sec over 60), a negative integer. -/
theorem rate_excluding_unclamped_negative (d : ℚ) (sr : List (ℤ × ℤ))
    (o : TranscriptionOutcome) (fl : Option (List String)) (fa : ℚ)
    (hlt : (analyze_audio_metrics_core d sr o fl fa).total_word_count
        < (analyze_audio_metrics_core d sr o fl fa).filler_count)
    (hpos : 0
        < (analyze_audio_metrics_core d sr o fl fa).actual_speaking_duration_sec_excluding_fillers) :
    (analyze_audio_metrics_core d sr o fl fa).rate_excluding_fillers_wpm
      = Int.floor ((((analyze_audio_metrics_core d sr o fl fa).total_word_count : ℚ)
            - ((analyze_audio_metrics_core d sr o fl fa).filler_count : ℚ))
          / ((analyze_audio_metrics_core d sr o fl fa).actual_speaking_duration_sec_excluding_fillers
              / 60)) ∧
    (analyze_audio_metrics_core d sr o fl fa).rate_excluding_fillers_wpm < 0 := by
  have heq := @rate_excluding_of_pos d sr o fl fa hpos
  rw [core_word_count] at hlt
  rw [core_filler_count] at hlt
  constructor
  · rw [heq, core_word_count, core_filler_count]
  · rw [heq]
    have hnum : (transcriptWordCount (transcriptOf o) : ℚ)
        - (transcriptFillerCount (resolvedFillerList fl) (transcriptOf o) : ℚ) < 0 := by
      have hq : (transcriptWordCount (transcriptOf o) : ℚ)
          < (transcriptFillerCount (resolvedFillerList fl) (transcriptOf o) : ℚ) := by
        exact_mod_cast hlt
      linarith
    have hden : 0
        < (analyze_audio_metrics_core d sr o fl fa).actual_speaking_duration_sec_excluding_fillers
          / 60 := div_pos hpos (by norm_num)
    have hqneg := div_neg_of_neg_of_pos hnum hden
    have hfl := Int.floor_le (((transcriptWordCount (transcriptOf o) : ℚ)
          - (transcriptFillerCount (resolvedFillerList fl) (transcriptOf o) : ℚ))
        / ((analyze_audio_metrics_core d sr o fl fa).actual_speaking_duration_sec_excluding_fillers
            / 60))
    exact_mod_cast lt_of_le_of_lt hfl hqneg

/-- Witness for C6: transcript um with the duplicated filler list um, um makes
filler_count 2 exceed total_word_count 1, the actual duration stays positive,
and the floored rate is negative. -/
theorem rate_excluding_unclamped_negative_witness :
    (analyze_audio_metrics_core 10 [] (.success "um") (some ["um", "um"])
        (3/10)).total_word_count
      < (analyze_audio_metrics_core 10 [] (.success "um") (some ["um", "um"])
          (3/10)).filler_count ∧
    0 < (analyze_audio_metrics_core 10 [] (.success "um") (some ["um", "um"])
        (3/10)).actual_speaking_duration_sec_excluding_fillers ∧
    (analyze_audio_metrics_core 10 [] (.success "um") (some ["um", "um"])
        (3/10)).rate_excluding_fillers_wpm < 0 := by
  have h1 : (analyze_audio_metrics_core 10 [] (.success "um") (some ["um", "um"])
        (3/10)).total_word_count
      < (analyze_audio_metrics_core 10 [] (.success "um") (some ["um", "um"])
          (3/10)).filler_count := by decide
  have hfc : transcriptFillerCount (resolvedFillerList (some ["um", "um"]))
      (transcriptOf (.success "um")) = 2 := by decide
  have h2 : 0 < (analyze_audio_metrics_core 10 [] (.success "um") (some ["um", "um"])
      (3/10)).actual_speaking_duration_sec_excluding_fillers := by
    rw [core_actual_duration, hfc]
    rw [if_neg (by norm_num [silenceSum])]
    norm_num [silenceSum]
  exact ⟨h1, h2,
    (rate_excluding_unclamped_negative 10 [] (.success "um") (some ["um", "um"]) (3/10) h1 h2).2⟩

/-! ## Claim C7 -/

/-- C7: when the detected silence covers the whole duration, the speaking time
is zero and both rates are zero, for every transcript outcome and filler list
and every non-negative filler average duration. -/
theorem all_silence_zero_rates (d : ℚ) (sr : List (ℤ × ℤ)) (o : TranscriptionOutcome)
    (fl : Option (List String)) (fa : ℚ) (hfa : 0 ≤ fa)
    (h : (analyze_audio_metrics_core d sr o fl fa).total_silence_duration_sec
        = (analyze_audio_metrics_core d sr o fl fa).total_duration_sec) :
    (analyze_audio_metrics_core d sr o fl fa).speaking_time_sec_excluding_pauses = 0 ∧
    (analyze_audio_metrics_core d sr o fl fa).rate_including_fillers_wpm = 0 ∧
    (analyze_audio_metrics_core d sr o fl fa).rate_excluding_fillers_wpm = 0 := by
  rw [core_total_silence, core_total_duration] at h
  have hsp : d - silenceSum sr = 0 := by rw [h]; ring
  refine ⟨?_, ?_, ?_⟩
  · rw [core_speaking_time, hsp]
  · exact rate_including_of_nonpos (le_of_eq hsp)
  · apply rate_excluding_of_nonpos
    rw [core_actual_duration]
    have hx : d - silenceSum sr
        - (transcriptFillerCount (resolvedFillerList fl) (transcriptOf o) : ℚ) * fa ≤ 0 := by
      rw [hsp]
      have := mul_nonneg
        (Nat.cast_nonneg (transcriptFillerCount (resolvedFillerList fl) (transcriptOf o)) :
          (0:ℚ) ≤ _) hfa
      linarith
    split_ifs with hc
    · exact le_refl 0
    · exact hx

/-- Witness for C7: a five-second clip whose single silence range covers all of
it, with a transcript full of fillers. -/
theorem all_silence_zero_rates_witness :
    (analyze_audio_metrics_core 5 [(0, 5000)] (.success "um like um") none
        (3/10)).total_silence_duration_sec
      = (analyze_audio_metrics_core 5 [(0, 5000)] (.success "um like um") none
          (3/10)).total_duration_sec ∧
    (analyze_audio_metrics_core 5 [(0, 5000)] (.success "um like um") none
        (3/10)).rate_including_fillers_wpm = 0 ∧
    (analyze_audio_metrics_core 5 [(0, 5000)] (.success "um like um") none
        (3/10)).rate_excluding_fillers_wpm = 0 := by
  have h : (analyze_audio_metrics_core 5 [(0, 5000)] (.success "um like um") none
        (3/10)).total_silence_duration_sec
      = (analyze_audio_metrics_core 5 [(0, 5000)] (.success "um like um") none
          (3/10)).total_duration_sec := by
    rw [core_total_silence, core_total_duration]
    norm_num [silenceSum]
  exact ⟨h,
    (all_silence_zero_rates 5 [(0, 5000)] (.success "um like um") none (3/10)
        (by norm_num) h).2⟩

/-! ## Claim C2 -/

theorem countMatches_nil (p : List Char) : countMatches p [] = 0 := rfl

theorem transcriptFillerCount_empty (fl : List String) : transcriptFillerCount fl "" = 0 := by
  induction fl with
  | nil => rfl
  | cons f l ih =>
    have hstep : transcriptFillerCount (f :: l) ""
        = countMatches f.data (toLowerChars "".data) + transcriptFillerCount l "" := by
      simp [transcriptFillerCount]
    rw [hstep, ih]
    rfl

/-- Counterexample to C2 as stated: on a transport error the transcript becomes
the error-annotated string, whose words are counted, so the word count is 3 and
not zero. -/
theorem transcriber_request_error_counts_words :
    (analyze_audio_metrics_core 10 [] (.requestError "x") none (3/10)).total_word_count = 3 ∧
    ¬ ((analyze_audio_metrics_core 10 [] (.requestError "x") none (3/10)).total_word_count
        = 0) := by
  decide

/-- C2 as amended: a transcriber failure never aborts the analysis; on a
recognition failure the transcript is empty and both the word count and the
filler count are zero, while on a transport error the transcript is the
error-annotated string and the analysis still returns a complete result, with
the counts computed over that string. -/
theorem transcriber_failure_degrades (d : ℚ) (sr : List (ℤ × ℤ))
    (fl : Option (List String)) (fa : ℚ) (det : String) :
    (analyze_audio_metrics_core d sr .unknownValue fl fa).transcript = "" ∧
    (analyze_audio_metrics_core d sr .unknownValue fl fa).total_word_count = 0 ∧
    (analyze_audio_metrics_core d sr .unknownValue fl fa).filler_count = 0 ∧
    (analyze_audio_metrics_core d sr (.requestError det) fl fa).transcript
      = "Request error: " ++ det ∧
    analyze_audio_metrics (.ok d) sr (.requestError det) fl fa
      = .ok (analyze_audio_metrics_core d sr (.requestError det) fl fa) ∧
    analyze_audio_metrics (.ok d) sr .unknownValue fl fa
      = .ok (analyze_audio_metrics_core d sr .unknownValue fl fa) := by
  refine ⟨rfl, rfl, ?_, rfl, rfl, rfl⟩
  rw [core_filler_count]
  exact transcriptFillerCount_empty _

/-! ## Claim C5 -/

/-- C5: filler matching is case-insensitive and boundary-aware: the filler um
contributes no match inside the word umbrella, and the transcript
um, I like it has filler count 2 under the default lexicon. -/
theorem filler_matching_boundary_aware :
    countMatches "um".data (toLowerChars "umbrella is nice".data) = 0 ∧
    (∀ (d : ℚ) (sr : List (ℤ × ℤ)) (fa : ℚ),
      (analyze_audio_metrics_core d sr (.success "um, I like it") none fa).filler_count = 2) := by
  refine ⟨by decide, ?_⟩
  intro d sr fa
  rw [core_filler_count]
  decide

/-! ## Claim C1 -/

/-- C1: when the uploaded file cannot be decoded, the route answers 500 with an
error body and analyze_audio_metrics is never invoked, so no result is
produced; and a load failure inside analyze_audio_metrics yields the distinct
load-error value rather than any result dictionary. -/
theorem decode_failure_server_error (name uuid e e2 : String)
    (exR : Except String Unit) (exW : Bool) (mr : Option String)
    (wl : Except String ℚ) (ws : List (ℤ × ℤ)) (wo : TranscriptionOutcome)
    (sr : List (ℤ × ℤ)) (o : TranscriptionOutcome) (fl : Option (List String)) (fa : ℚ)
    (hname : name ≠ "") :
    (analyze ⟨some ⟨name⟩⟩ ⟨uuid, .error e, exR, exW, mr, wl, ws, wo⟩).response.status = 500 ∧
    (analyze ⟨some ⟨name⟩⟩ ⟨uuid, .error e, exR, exW, mr, wl, ws, wo⟩).response.body
      = .errorBody e ∧
    (analyze ⟨some ⟨name⟩⟩ ⟨uuid, .error e, exR, exW, mr, wl, ws, wo⟩).analyzeCalled = false ∧
    analyze_audio_metrics (.error e2) sr o fl fa
      = .error ("Error loading audio file: " ++ e2) := by
  refine ⟨?_, ?_, ?_, rfl⟩ <;> simp [analyze, hname]

/-- Witness for C1 at a concrete request whose decode fails. -/
theorem decode_failure_server_error_witness :
    (analyze ⟨some ⟨"a.aac"⟩⟩
        ⟨"u1", .error "bad data", .ok (), false, none, .ok 1, [], .unknownValue⟩).response.status
      = 500 ∧
    (analyze ⟨some ⟨"a.aac"⟩⟩
        ⟨"u1", .error "bad data", .ok (), false, none, .ok 1, [], .unknownValue⟩).response.body
      = .errorBody "bad data" ∧
    (analyze ⟨some ⟨"a.aac"⟩⟩
        ⟨"u1", .error "bad data", .ok (), false, none, .ok 1, [], .unknownValue⟩).analyzeCalled
      = false ∧
    analyze_audio_metrics (.error "bad wav") [] .unknownValue none (3/10)
      = .error ("Error loading audio file: " ++ "bad wav") :=
  decode_failure_server_error "a.aac" "u1" "bad data" "bad wav" (.ok ()) false none (.ok 1) []
    .unknownValue [] .unknownValue none (3/10) (by decide)

/-! ## Claim C8 -/

/-- C8: a request with no file field gets 400 with the no-file-part error body,
and a request whose file has an empty filename gets 400 with the no-file-
selected error body; in both cases no analysis runs and no file is written. -/
theorem upload_validation_errors (env : HandlerEnv) :
    (analyze ⟨none⟩ env).response.status = 400 ∧
    (analyze ⟨none⟩ env).response.body = .errorBody "No file part in the request" ∧
    (analyze ⟨none⟩ env).analyzeCalled = false ∧
    (analyze ⟨none⟩ env).written = [] ∧
    (analyze ⟨some ⟨""⟩⟩ env).response.status = 400 ∧
    (analyze ⟨some ⟨""⟩⟩ env).response.body = .errorBody "No file selected" ∧
    (analyze ⟨some ⟨""⟩⟩ env).analyzeCalled = false ∧
    (analyze ⟨some ⟨""⟩⟩ env).written = [] := by
  refine ⟨rfl, rfl, rfl, rfl, ?_, ?_, ?_, ?_⟩ <;> simp [analyze]

/-! ## Claim C9 -/

/-- Counterexample to C9 as stated: a validated request whose decode fails
writes exactly one temporary file, not two. -/
theorem temp_files_single_write_on_decode_failure :
    (analyze ⟨some ⟨"a.aac"⟩⟩
        ⟨"u1", .error "decode failed", .ok (), false, none, .ok 1, [],
          .unknownValue⟩).written.length = 1 ∧
    ¬ ((analyze ⟨some ⟨"a.aac"⟩⟩
        ⟨"u1", .error "decode failed", .ok (), false, none, .ok 1, [],
          .unknownValue⟩).written.length = 2) := by
  decide

/-- C9 as amended: every request writes at most two temporary files, exactly
two on any path that answers 200, and every temporary file the request created
has been removed when the handler returns. -/
theorem temp_files_cleanup (req : AnalyzeRequest) (env : HandlerEnv) :
    (analyze req env).remaining = [] ∧
    (analyze req env).written.length ≤ 2 ∧
    ((analyze req env).response.status = 200 → (analyze req env).written.length = 2) := by
  obtain ⟨ff⟩ := req
  obtain ⟨uuid, dec, exp, expW, mr, wl, ws, wo⟩ := env
  cases ff with
  | none => simp [analyze]
  | some f =>
    by_cases hf : f.filename = ""
    · simp [analyze, hf]
    · cases dec with
      | error e => simp [analyze, hf, removeIfExists]
      | ok u =>
        cases exp with
        | error e => cases expW <;> simp [analyze, hf, removeIfExists]
        | ok u2 =>
          cases mr with
          | some m => simp [analyze, hf, removeIfExists]
          | none => simp [analyze, hf, removeIfExists]

/-- Witness for C9 as amended, on a concrete success path. -/
theorem temp_files_cleanup_witness :
    (analyze ⟨some ⟨"a.aac"⟩⟩
        ⟨"u1", .ok (), .ok (), false, none, .ok 1, [], .unknownValue⟩).response.status = 200 ∧
    (analyze ⟨some ⟨"a.aac"⟩⟩
        ⟨"u1", .ok (), .ok (), false, none, .ok 1, [], .unknownValue⟩).written.length = 2 :=
  ⟨by decide, (temp_files_cleanup ⟨some ⟨"a.aac"⟩⟩
      ⟨"u1", .ok (), .ok (), false, none, .ok 1, [], .unknownValue⟩).2.2 (by decide)⟩

/-! ## Tokenizer lemmas for claim C10 -/

theorem tokens_cons_neg {c : Char} (h : isWordChar c = false) (cs : List Char) :
    tokens (c :: cs) = tokens cs := by
  simp [tokens, tokensAux, h]

theorem tokensAux_cons_acc (t : List Char) : ∀ (a : Char) (acc : List Char),
    tokensAux t (a :: acc)
      = ((a :: acc).reverse ++ t.takeWhile isWordChar) :: tokens (t.dropWhile isWordChar) := by
  induction t with
  | nil =>
    intro a acc
    simp [tokensAux, tokens]
  | cons c cs ih =>
    intro a acc
    by_cases hw : isWordChar c
    · rw [show tokensAux (c :: cs) (a :: acc) = tokensAux cs (c :: a :: acc) by
        simp [tokensAux, hw]]
      rw [ih c (a :: acc)]
      simp [List.takeWhile_cons, List.dropWhile_cons, hw]
    · have hw' : isWordChar c = false := by simpa using hw
      rw [show tokensAux (c :: cs) (a :: acc)
          = (a :: acc).reverse :: tokensAux cs [] by simp [tokensAux, hw']]
      rw [show (c :: cs).takeWhile isWordChar = [] by simp [List.takeWhile_cons, hw']]
      rw [show (c :: cs).dropWhile isWordChar = c :: cs by simp [List.dropWhile_cons, hw']]
      rw [tokens_cons_neg hw']
      simp [tokens]

theorem tokens_cons_pos {c : Char} (hw : isWordChar c = true) (cs : List Char) :
    tokens (c :: cs)
      = (c :: cs.takeWhile isWordChar) :: tokens (cs.dropWhile isWordChar) := by
  rw [show tokens (c :: cs) = tokensAux cs [c] by simp [tokens, tokensAux, hw]]
  rw [tokensAux_cons_acc cs c []]
  simp

theorem tokensAux_append {r : List Char} (hr : headIsWord r = false) :
    ∀ (p acc : List Char), tokensAux (p ++ r) acc = tokensAux p acc ++ tokens r := by
  intro p
  induction p with
  | nil =>
    intro acc
    cases acc with
    | nil =>
      simp [tokensAux, tokens]
    | cons a as =>
      cases r with
      | nil => simp [tokensAux, tokens]
      | cons d r' =>
        have hd : isWordChar d = false := by simpa [headIsWord] using hr
        simp [tokensAux, hd, tokens]
  | cons c p' ih =>
    intro acc
    by_cases hw : isWordChar c
    · rw [show ((c :: p') ++ r) = c :: (p' ++ r) by simp]
      rw [show tokensAux (c :: (p' ++ r)) acc = tokensAux (p' ++ r) (c :: acc) by
        simp [tokensAux, hw]]
      rw [show tokensAux (c :: p') acc = tokensAux p' (c :: acc) by simp [tokensAux, hw]]
      exact ih (c :: acc)
    · have hw' : isWordChar c = false := by simpa using hw
      cases acc with
      | nil =>
        rw [show ((c :: p') ++ r) = c :: (p' ++ r) by simp]
        rw [show tokensAux (c :: (p' ++ r)) [] = tokensAux (p' ++ r) [] by
          simp [tokensAux, hw']]
        rw [show tokensAux (c :: p') [] = tokensAux p' [] by simp [tokensAux, hw']]
        exact ih []
      | cons a as =>
        rw [show ((c :: p') ++ r) = c :: (p' ++ r) by simp]
        rw [show tokensAux (c :: (p' ++ r)) (a :: as)
            = (a :: as).reverse :: tokensAux (p' ++ r) [] by simp [tokensAux, hw']]
        rw [show tokensAux (c :: p') (a :: as)
            = (a :: as).reverse :: tokensAux p' [] by simp [tokensAux, hw']]
        rw [ih []]
        simp

theorem tokens_append {p r : List Char} (hr : headIsWord r = false) :
    tokens (p ++ r) = tokens p ++ tokens r := by
  simpa [tokens] using tokensAux_append hr p []

theorem dropWhile_head_neg {r : List Char} (hr : headIsWord r = false) :
    r.dropWhile isWordChar = r := by
  cases r with
  | nil => rfl
  | cons d r' =>
    have hd : isWordChar d = false := by simpa [headIsWord] using hr
    simp [List.dropWhile_cons, hd]

/-! ## Scanner lemmas for claim C10 -/

theorem scanWordState_cons (c : Char) (q : List Char) (prev : Bool) :
    scanWordState (c :: q) prev = scanWordState q (isWordChar c) := rfl

theorem findall_walk (p : List Char) : ∀ (q : List Char) (prev : Bool) (r : List Char),
    findallCountAux p (q ++ r) prev q.length
      = findallCountAux p r (scanWordState q prev) 0 := by
  intro q
  induction q with
  | nil => intro prev r; rfl
  | cons c q' ih =>
    intro prev r
    rw [show ((c :: q') ++ r) = c :: (q' ++ r) by simp]
    rw [show (c :: q').length = q'.length + 1 from rfl]
    rw [show findallCountAux p (c :: (q' ++ r)) prev (q'.length + 1)
        = findallCountAux p (q' ++ r) (isWordChar c) q'.length from rfl]
    rw [scanWordState_cons]
    exact ih (isWordChar c) r

theorem matchHere_parts {p s : List Char} {prevW : Bool} (h : matchHere p s prevW = true) :
    p ≠ [] ∧ s.take p.length = p ∧ (prevW != headIsWord p) = true ∧
      (endsWord p != headIsWord (s.drop p.length)) = true := by
  have h' := h
  simp only [matchHere, Bool.and_eq_true, Bool.not_eq_true'] at h'
  obtain ⟨⟨⟨h1, h2⟩, h3⟩, h4⟩ := h'
  refine ⟨?_, ?_, h3, h4⟩
  · intro hnil
    rw [hnil] at h1
    simp at h1
  · exact beq_iff_eq.mp h2

theorem matchHere_false_of_prev_true {p s : List Char} (hs : headIsWord p = true) :
    matchHere p s true = false := by
  simp [matchHere, hs]

/-- Each boundary-wrapped match of the pattern p starts a fresh token, so the
match count is bounded by the number of occurrences of any fixed token that
occurs in the token list of p itself.  The two conjuncts track the two scanner
states: at a fresh position, and just after a word character. -/
theorem findallCount_le_token_count (p τ : List Char) (hp : p ≠ [])
    (hs : headIsWord p = true) (he : endsWord p = true)
    (hτ : 1 ≤ (tokens p).count τ) :
    ∀ (n : ℕ) (t : List Char), t.length ≤ n →
      findallCountAux p t false 0 ≤ (tokens t).count τ ∧
      findallCountAux p t true 0 ≤ (tokens (t.dropWhile isWordChar)).count τ := by
  intro n
  induction n with
  | zero =>
    intro t ht
    have hnil : t = [] := List.length_eq_zero.mp (Nat.le_zero.mp ht)
    subst hnil
    exact ⟨Nat.zero_le _, Nat.zero_le _⟩
  | succ n ih =>
    intro t ht
    cases t with
    | nil => exact ⟨Nat.zero_le _, Nat.zero_le _⟩
    | cons c cs =>
      have hcs : cs.length ≤ n := by
        simp only [List.length_cons] at ht
        omega
      constructor
      · by_cases hm : matchHere p (c :: cs) false = true
        · obtain ⟨hp0, htake, hbefore, hafter⟩ := matchHere_parts hm
          obtain ⟨r, hsplit⟩ : ∃ r, c :: cs = p ++ r :=
            ⟨(c :: cs).drop p.length, by
              conv_lhs => rw [← List.take_append_drop p.length (c :: cs)]
              rw [htake]⟩
          have hdropr : (c :: cs).drop p.length = r := by
            rw [hsplit, List.drop_left]
          have hrhead : headIsWord r = false := by
            rw [he, hdropr] at hafter
            cases hh : headIsWord r with
            | false => rfl
            | true => rw [hh] at hafter; simp at hafter
          obtain ⟨p', rfl⟩ : ∃ p', p = c :: p' := by
            cases p with
            | nil => exact absurd rfl hp
            | cons a b =>
              rw [List.cons_append] at hsplit
              injection hsplit with h1 h2
              subst h1
              exact ⟨b, rfl⟩
          have hcs2 : cs = p' ++ r := by
            rw [List.cons_append] at hsplit
            injection hsplit with h1 h2
          have hrlen : r.length ≤ n := by
            have hlen := congrArg List.length hcs2
            simp only [List.length_append] at hlen
            omega
          have hL : findallCountAux (c :: p') (c :: cs) false 0
              = 1 + findallCountAux (c :: p') r true 0 := by
            rw [show findallCountAux (c :: p') (c :: cs) false 0
                = 1 + findallCountAux (c :: p') cs (isWordChar c) ((c :: p').length - 1) by
              simp [findallCountAux, hm]]
            rw [show (c :: p').length - 1 = p'.length by simp]
            rw [hcs2, findall_walk]
            rw [show scanWordState p' (isWordChar c) = endsWord (c :: p') from rfl]
            rw [he]
          rw [hL]
          rw [show (c :: cs) = (c :: p') ++ r by rw [List.cons_append, ← hcs2]]
          rw [tokens_append hrhead, List.count_append]
          have hb := (ih r hrlen).2
          rw [dropWhile_head_neg hrhead] at hb
          omega
        · have hm' : matchHere p (c :: cs) false = false := by
            simpa using hm
          rw [show findallCountAux p (c :: cs) false 0
              = findallCountAux p cs (isWordChar c) 0 by
            simp [findallCountAux, hm']]
          by_cases hw : isWordChar c
          · rw [hw]
            have hb := (ih cs hcs).2
            rw [tokens_cons_pos hw, List.count_cons]
            exact le_trans hb (Nat.le_add_right _ _)
          · have hw' : isWordChar c = false := by simpa using hw
            rw [hw', tokens_cons_neg hw']
            exact (ih cs hcs).1
      · have hmf : matchHere p (c :: cs) true = false := matchHere_false_of_prev_true hs
        rw [show findallCountAux p (c :: cs) true 0
            = findallCountAux p cs (isWordChar c) 0 by
          simp [findallCountAux, hmf]]
        by_cases hw : isWordChar c
        · rw [hw]
          rw [show (c :: cs).dropWhile isWordChar = cs.dropWhile isWordChar by
            simp [List.dropWhile_cons, hw]]
          exact (ih cs hcs).2
        · have hw' : isWordChar c = false := by simpa using hw
          rw [hw']
          rw [show (c :: cs).dropWhile isWordChar = c :: cs by
            simp [List.dropWhile_cons, hw']]
          rw [tokens_cons_neg hw']
          exact (ih cs hcs).1

theorem countMatches_le_token_count {p τ : List Char} (hp : p ≠ [])
    (hs : headIsWord p = true) (he : endsWord p = true)
    (hτ : 1 ≤ (tokens p).count τ) (t : List Char) :
    countMatches p t ≤ (tokens t).count τ :=
  (findallCount_le_token_count p τ hp hs he hτ t.length t le_rfl).1

/-! ## Counting distinct token values -/

theorem sum_map_add {α : Type} (f g : α → ℕ) : ∀ l : List α,
    (l.map (fun x => f x + g x)).sum = (l.map f).sum + (l.map g).sum := by
  intro l
  induction l with
  | nil => rfl
  | cons a l ih =>
    simp only [List.map_cons, List.sum_cons, ih]
    omega

theorem indicator_sum_zero {α : Type} [DecidableEq α] (a : α) : ∀ vs : List α, a ∉ vs →
    (vs.map (fun v => if a = v then (1:ℕ) else 0)).sum = 0 := by
  intro vs
  induction vs with
  | nil => intro _; rfl
  | cons v vs ih =>
    intro hmem
    have hva : a ≠ v := by
      intro h
      exact hmem (by rw [h]; exact List.mem_cons_self v vs)
    simp only [List.map_cons, List.sum_cons, if_neg hva]
    rw [Nat.zero_add]
    exact ih (fun h => hmem (List.mem_cons_of_mem v h))

theorem indicator_sum_le_one {α : Type} [DecidableEq α] (a : α) : ∀ vs : List α, vs.Nodup →
    (vs.map (fun v => if a = v then (1:ℕ) else 0)).sum ≤ 1 := by
  intro vs
  induction vs with
  | nil => intro _; exact Nat.zero_le _
  | cons v vs ih =>
    intro hnd
    simp only [List.map_cons, List.sum_cons]
    by_cases hva : a = v
    · subst hva
      rw [if_pos rfl, indicator_sum_zero a vs (List.Nodup.not_mem hnd)]
    · rw [if_neg hva, Nat.zero_add]
      exact ih (List.Nodup.of_cons hnd)

theorem sum_counts_le (vals : List (List Char)) (hnd : vals.Nodup) :
    ∀ l : List (List Char), (vals.map (fun v => l.count v)).sum ≤ l.length := by
  intro l
  induction l with
  | nil =>
    simp
  | cons a l ihl =>
    have hc : (vals.map (fun v => (a :: l).count v)).sum
        = (vals.map (fun v => l.count v)).sum
          + (vals.map (fun v => if a = v then (1:ℕ) else 0)).sum := by
      simp only [List.count_cons, beq_iff_eq]
      exact sum_map_add (fun v => l.count v) (fun v => if a = v then (1:ℕ) else 0) vals
    rw [hc]
    have hone := indicator_sum_le_one a vals hnd
    simp only [List.length_cons]
    omega

/-! ## Claim C10 -/

theorem default_fillers_le_tokens (L : List Char) :
    (default_filler_list.map (fun f => countMatches f.data L)).sum ≤ (tokens L).length := by
  have hum := countMatches_le_token_count (p := "um".data) (τ := "um".data)
    (by decide) (by decide) (by decide) (by decide) L
  have huh := countMatches_le_token_count (p := "uh".data) (τ := "uh".data)
    (by decide) (by decide) (by decide) (by decide) L
  have her := countMatches_le_token_count (p := "er".data) (τ := "er".data)
    (by decide) (by decide) (by decide) (by decide) L
  have hah := countMatches_le_token_count (p := "ah".data) (τ := "ah".data)
    (by decide) (by decide) (by decide) (by decide) L
  have hlike := countMatches_le_token_count (p := "like".data) (τ := "like".data)
    (by decide) (by decide) (by decide) (by decide) L
  have hyou := countMatches_le_token_count (p := "you know".data) (τ := "you".data)
    (by decide) (by decide) (by decide) (by decide) L
  have hsum := sum_counts_le
    ["um".data, "uh".data, "er".data, "ah".data, "like".data, "you".data]
    (by decide) (tokens L)
  simp only [default_filler_list, List.map_cons, List.map_nil, List.sum_cons,
    List.sum_nil] at hum huh her hah hlike hyou hsum ⊢
  omega

/-- C10: under the default filler lexicon, the filler count never exceeds the
word count, because every boundary-aware filler match consumes a distinct word
token; so the numerator of rate_excluding_fillers_wpm is never negative under
the default configuration. -/
theorem default_fillers_le_word_count (d : ℚ) (sr : List (ℤ × ℤ))
    (o : TranscriptionOutcome) (fa : ℚ) :
    (analyze_audio_metrics_core d sr o none fa).filler_count
      ≤ (analyze_audio_metrics_core d sr o none fa).total_word_count := by
  rw [core_filler_count, core_word_count]
  exact default_fillers_le_tokens (toLowerChars (transcriptOf o).data)
